import Mathlib

/-!
Verification of the perftest probing and alerting engine (src/perftest.go).

The Go program is shallowly embedded: machine integers (`int`, `int64`,
`time.Duration` in nanoseconds, Unix timestamps in seconds) become `Int`;
the probe operation `util.FetchURL` becomes an oracle
`probe : Nat → Option PingTimes` giving the result of the i-th attempt
(`none` = fetch failure, as in `nil == pt`); the `done` channel becomes an
optional closure index; the per-target loop `testHttp` becomes a
fuel-indexed step function over an explicit loop state.
-/

/-- Timing sample for one successful probe attempt.  Embeds the fields of
`util.PingTimes` that the engine in src/perftest.go reads and accumulates
(perftest.go lines 306, 328-334): phase durations in nanoseconds
(`time.Duration`), payload size in bytes (`int64`), and the start Unix
timestamp in seconds (`Start.Unix()`, used by the alert debounce).
Modelled from the spec: the `util` package is not part of src/, so the
struct shape follows spec section 3 "Timing Sample". -/
structure PingTimes where
  dnsLk : Int
  tcpHs : Int
  tlsHs : Int
  reply : Int
  close : Int
  total : Int
  size : Int
  start : Int
deriving DecidableEq

/-- Modelled from the spec: `util.PingTimes.RespTime()` is not in src/;
spec section 3 defines the sample's "total elapsed duration (sum/derived)",
which the summary accumulates via the `Total` field (perftest.go line 333). -/
def PingTimes.RespTime (p : PingTimes) : Int := p.total

/-- The zero value of the Go `util.PingTimes` variable `ptSummary`
(perftest.go line 289): all fields zero-initialized. -/
def zeroPT : PingTimes := ⟨0, 0, 0, 0, 0, 0, 0, 0⟩

/-- Accumulation of one further sample into the running summary,
perftest.go lines 328-334: the seven numeric fields are added; the other
fields (here `start`) keep the first sample's values. -/
def summaryAdd (s pt : PingTimes) : PingTimes :=
  { s with
    dnsLk := s.dnsLk + pt.dnsLk
    tcpHs := s.tcpHs + pt.tcpHs
    tlsHs := s.tlsHs + pt.tlsHs
    reply := s.reply + pt.reply
    close := s.close + pt.close
    total := s.total + pt.total
    size := s.size + pt.size }

/-- Modelled from the spec: `util.Msec` is not in src/; the per-field
averages are reported in milliseconds (spec section 6 "Output"), so a
nanosecond duration is divided by 10^6, exactly, over ℚ. -/
def Msec (d : Int) : ℚ := (d : ℚ) / 1000000

/-- Sum of one numeric field over a list of samples. -/
def sumBy (f : PingTimes → Int) (L : List PingTimes) : Int :=
  (L.map f).sum

----------------------------------------------------------------------
-- Alert Manager (perftest.go lines 414-439)
----------------------------------------------------------------------

/-- Outcome of one call of the alert path for one sample. -/
inductive AlertAction
  | noBreach      -- response time did not exceed the threshold (line 373)
  | suppressed    -- within the debounce interval, early return (lines 424-429)
  | configError   -- "OOPS: nowhere to send notification" (lines 432-433)
  | dispatched    -- Twilio messages sent to every recipient (lines 434-438)
deriving DecidableEq

/-- `sendAlert` from perftest.go lines 417-439, restricted to its effect on
the debounce state.  `interval` is `*alertInterval` (seconds), `lastA` the
global `lastAlert`, `t` the sample's `pt.Start.Unix()`, `creds` whether
both `twilioKey` and `twilioSms` are non-empty.  Returns the action taken
and the new value of `lastAlert`.  Note the code updates `lastAlert`
(line 430) before checking the notification configuration (line 432). -/
def sendAlert (interval lastA t : Int) (creds : Bool) : AlertAction × Int :=
  if t - lastA < interval then (.suppressed, lastA)
  else if creds then (.dispatched, t) else (.configError, t)

/-- The alert call site, perftest.go line 373: `sendAlert` runs only when
`pt.RespTime() > alertThresh` (strict). -/
def considerAlert (thresh interval lastA respTime t : Int) (creds : Bool) :
    AlertAction × Int :=
  if thresh < respTime then sendAlert interval lastA t creds
  else (.noBreach, lastA)

/-- Sequential processing of a list of samples `(respTime, startUnix)`
through the alert path, threading the `lastAlert` state; returns the final
`lastAlert` and the number of dispatched alerts. -/
def processAlerts (thresh interval : Int) (creds : Bool) (lastA : Int) :
    List (Int × Int) → Int × Nat
  | [] => (lastA, 0)
  | (r, t) :: rest =>
      let step := considerAlert thresh interval lastA r t creds
      let tail := processAlerts thresh interval creds step.2 rest
      (tail.1, (if step.1 = AlertAction.dispatched then 1 else 0) + tail.2)

----------------------------------------------------------------------
-- Shutdown Coordinator (perftest.go lines 235-243)
----------------------------------------------------------------------

/-- State of the signal-handler goroutine and the shared done channel:
`hasRef` is whether the goroutine's `doneChan` variable is still non-nil,
`closed` whether the channel itself has been closed. -/
structure StopState where
  hasRef : Bool
  closed : Bool
deriving DecidableEq

/-- State before any termination signal: `doneChan` non-nil (line 228),
channel open. -/
def initStop : StopState := ⟨true, false⟩

/-- Closing a Go channel: panics (`Except.error`) if it is already closed,
otherwise transitions it to closed. -/
def closeChan (closed : Bool) : Except Unit Bool :=
  if closed then .error () else .ok true

/-- One iteration of the signal-handler goroutine loop, perftest.go lines
236-242: on each received signal, close the channel only when the local
reference is still non-nil, then nil it out.  Returns the new state and
whether a close was performed; `Except.error` would be a runtime panic. -/
def handleSignal (s : StopState) : Except Unit (StopState × Bool) :=
  if s.hasRef then
    (closeChan s.closed).map (fun c => (⟨false, c⟩, true))
  else .ok (s, false)

----------------------------------------------------------------------
-- Unsynchronized debounce state, two-loop interleaving (perftest.go
-- lines 414-438; `lastAlert` is a bare package-level int64, and the only
-- sync primitive in the file is the WaitGroup)
----------------------------------------------------------------------

/-- Shared-memory state of two target loops concurrently inside
`sendAlert` for breaching samples with start times `t0`, `t1`:
`lastAlert` is the shared global; each thread has a program counter, the
local value `timeSinceLast` it computed (line 418), and whether it reached
the dispatch branch (lines 430-437). -/
structure RaceState where
  lastAlert : Int
  pc0 : Nat
  r0 : Int
  disp0 : Bool
  pc1 : Nat
  r1 : Int
  disp1 : Bool
deriving DecidableEq

/-- Both loops at the start of `sendAlert`, no alert ever sent
(`lastAlert` has its zero value). -/
def raceInit : RaceState := ⟨0, 0, 0, false, 0, 0, false⟩

/-- One atomic action of thread `tid` inside `sendAlert`:
pc 0 reads the shared `lastAlert` and computes `timeSinceLast` (line 418);
pc 1 tests it against the interval (line 424) and, unless suppressed,
writes `lastAlert` (line 430) and dispatches (lines 434-437).  The read at
pc 0 and the check-and-write at pc 1 are separate memory actions because
the source takes no lock between them. -/
def raceStep (interval t0 t1 : Int) (tid : Bool) (s : RaceState) : RaceState :=
  if tid = false then
    match s.pc0 with
    | 0 => { s with r0 := t0 - s.lastAlert, pc0 := 1 }
    | 1 =>
        if s.r0 < interval then { s with pc0 := 2 }
        else { s with lastAlert := t0, disp0 := true, pc0 := 2 }
    | _ => s
  else
    match s.pc1 with
    | 0 => { s with r1 := t1 - s.lastAlert, pc1 := 1 }
    | 1 =>
        if s.r1 < interval then { s with pc1 := 2 }
        else { s with lastAlert := t1, disp1 := true, pc1 := 2 }
    | _ => s

/-- Run an interleaving schedule of the two threads from `raceInit`. -/
def raceRun (interval t0 t1 : Int) (sched : List Bool) : RaceState :=
  sched.foldl (fun s tid => raceStep interval t0 t1 tid s) raceInit

----------------------------------------------------------------------
-- Notification sinks (perftest.go lines 100-121 and 441-481)
----------------------------------------------------------------------

/-- Outcome of one `sendTwilio` call. -/
inductive TwilioOutcome
  | badKeyFormat    -- "incorrect formation for Twilio account:token", safe return (443-446)
  | panicNilDeref   -- client.Do failed, resp is nil, resp.StatusCode panics (470-471)
  | sentOk          -- 2xx status, sid printed (471-477)
  | httpErrorLogged -- non-2xx status logged (478-480)
deriving DecidableEq

/-- `strings.Index(key, ":")` as used on perftest.go line 442. -/
def keySeparator (key : String) : Option Nat :=
  key.toList.findIdx? (fun ch => ch = ':')

/-- `sendTwilio` from perftest.go lines 441-481, restricted to its control
flow on the delivery result.  `doResult` models `client.Do(req)` (line
470): `none` when the POST fails (Go returns a nil response and an error,
and the error is discarded by `resp, _ :=`), `some status` otherwise.
When `doResult` is `none` the code evaluates `resp.StatusCode` on a nil
pointer (line 471), a runtime panic. -/
def sendTwilio (key : String) (doResult : Option Int) : TwilioOutcome :=
  match keySeparator key with
  | none => .badKeyFormat
  | some _ =>
      match doResult with
      | none => .panicNilDeref
      | some status =>
          if 200 ≤ status ∧ status < 300 then .sentOk else .httpErrorLogged

/-- Outcome of one `publishJSON` call (perftest.go lines 100-121).
`marshalOk` models `json.Marshal` succeeding, `postResult` models
`whClient.Post`: `none` on error.  Both error paths log and return. -/
inductive WebhookOutcome
  | marshalErrorLogged
  | postErrorLogged
  | delivered
deriving DecidableEq

/-- Control flow of `publishJSON`: every delivery error is logged and the
function returns normally. -/
def publishJSON (marshalOk : Bool) (postResult : Option Int) : WebhookOutcome :=
  if marshalOk = false then .marshalErrorLogged
  else
    match postResult with
    | none => .postErrorLogged
    | some _ => .delivered

----------------------------------------------------------------------
-- Target Probe Loop (`testHttp`, perftest.go lines 267-393)
----------------------------------------------------------------------

/-- The effective attempt bound: perftest.go lines 270-272 replace
`numTries == 0` by `math.MaxInt32`. -/
def effTries (nt : Int) : Int :=
  if nt = 0 then 2147483647 else nt

/-- The done channel, observed at the loop's `select` (lines 384-391).
A Go channel close is terminal, so the channel is modelled by its closure
point: `none` = never closed, `some t` = closed in time for the wait of
iteration `t` and every later one. -/
def doneClosed (c : Option Nat) (i : Nat) : Bool :=
  match c with
  | none => false
  | some t => decide (t ≤ i)

/-- Mutable state of one `testHttp` loop (perftest.go lines 287-289):
`count` successful samples (`int64`), `failcount` failures (`int`),
`ptSummary` the running aggregation, and `deferred` whether the summary
printer has been registered by `defer` (lines 307-326), which happens on
the first success. -/
structure LoopState where
  count : Int
  failcount : Int
  ptSummary : PingTimes
  deferred : Bool
deriving DecidableEq

/-- Loop state on entry to `testHttp`'s for-loop. -/
def initLoop : LoopState := ⟨0, 0, zeroPT, false⟩

/-- Why the loop returned. -/
inductive ExitReason
  | failCeiling   -- failcount reached *maxFails (lines 295-302)
  | maxAttempts   -- count reached numTries (lines 379-382)
  | stopped       -- the done channel was observed closed (lines 385-387)
deriving DecidableEq

/-- Result of one `testHttp` run: the exit reason, the index of the
iteration during which the loop returned, the final state, whether the
"No valid samples received" line was printed (line 299), and whether the
deferred summary printer ran on return (it runs on every return path once
registered). -/
structure ExitInfo where
  reason : ExitReason
  idx : Nat
  state : LoopState
  noSamplesMsg : Bool
  summaryPrinted : Bool
deriving DecidableEq

/-- Loop state after a successful attempt, perftest.go lines 304-340:
the first success (`count == 0`) copies the sample into `ptSummary` and
registers the deferred summary printer; later successes add into it; then
`count++`. -/
def succState (s : LoopState) (pt : PingTimes) : LoopState :=
  { count := s.count + 1
    failcount := s.failcount
    ptSummary := if s.count = 0 then pt else summaryAdd s.ptSummary pt
    deferred := if s.count = 0 then true else s.deferred }

/-- The body of `testHttp`'s for-loop (perftest.go lines 291-392), as a
fuel-indexed recursion.  Iteration `i` fetches `probe i`; on failure it
increments `failcount` and returns when the ceiling is reached, printing
the no-samples line iff `count == 0`; on success it initializes or extends
the summary (registering the deferred printer on the first success) and
increments `count`; then the `count >= numTries` check runs (it is outside
the if/else, so it also runs after a non-fatal failure), and finally the
`select` races the done channel against the delay timer.  `none` means the
fuel ran out with the loop still running. -/
def runFrom (mf nt : Int) (probe : Nat → Option PingTimes) (c : Option Nat) :
    Nat → LoopState → Nat → Option ExitInfo
  | 0, _, _ => none
  | fuel + 1, s, i =>
    match probe i with
    | none =>
        if mf ≤ s.failcount + 1 then
          some ⟨.failCeiling, i, { s with failcount := s.failcount + 1 },
            decide (s.count = 0), s.deferred⟩
        else if effTries nt ≤ s.count then
          some ⟨.maxAttempts, i, { s with failcount := s.failcount + 1 },
            false, s.deferred⟩
        else if doneClosed c i then
          some ⟨.stopped, i, { s with failcount := s.failcount + 1 },
            false, s.deferred⟩
        else
          runFrom mf nt probe c fuel { s with failcount := s.failcount + 1 }
            (i + 1)
    | some pt =>
        if effTries nt ≤ s.count + 1 then
          some ⟨.maxAttempts, i, succState s pt, false,
            (succState s pt).deferred⟩
        else if doneClosed c i then
          some ⟨.stopped, i, succState s pt, false,
            (succState s pt).deferred⟩
        else
          runFrom mf nt probe c fuel (succState s pt) (i + 1)

/-- One `testHttp` run from the initial state: `mf` is `*maxFails`,
`nt` the `numTries` argument, `probe` the attempt oracle, `c` the done
channel's closure point, `fuel` an upper bound on iterations. -/
def testHttp (mf nt : Int) (probe : Nat → Option PingTimes) (c : Option Nat)
    (fuel : Nat) : Option ExitInfo :=
  runFrom mf nt probe c fuel initLoop 0

/-- The successful samples among the first `n` probe attempts, in order. -/
def succs (probe : Nat → Option PingTimes) (n : Nat) : List PingTimes :=
  (List.range n).filterMap probe

/-- The finalized Running Summary as printed by the deferred printer
(perftest.go lines 307-326): each phase average is `util.Msec(sum)/fc`
with `fc = float64(count)` (exact division over ℚ in the model), and the
size average is the Go `int64` division `ptSummary.Size/count`, which
truncates toward zero (`Int.tdiv`). -/
structure SummaryReport where
  dnsLk : ℚ
  tcpHs : ℚ
  tlsHs : ℚ
  reply : ℚ
  close : ℚ
  respTime : ℚ
  size : Int
deriving DecidableEq

/-- The report computed by the deferred summary printer from the loop
state at exit. -/
def finalReport (s : LoopState) : SummaryReport :=
  { dnsLk := Msec s.ptSummary.dnsLk / (s.count : ℚ)
    tcpHs := Msec s.ptSummary.tcpHs / (s.count : ℚ)
    tlsHs := Msec s.ptSummary.tlsHs / (s.count : ℚ)
    reply := Msec s.ptSummary.reply / (s.count : ℚ)
    close := Msec s.ptSummary.close / (s.count : ℚ)
    respTime := Msec s.ptSummary.RespTime / (s.count : ℚ)
    size := s.ptSummary.size.tdiv s.count }

----------------------------------------------------------------------
-- Claims C1, C5, C7, C9, C10
----------------------------------------------------------------------

/-- C1, counterexample: two breaching samples (threshold 100, debounce
interval 300 s) whose start timestamps are only 50 s apart arrive 100 s
after a previously dispatched alert (`lastAlert = 1000`).  The code
suppresses both, dispatching zero alerts, not exactly one as claimed. -/
theorem c1_debounce_counterexample :
    ¬ (processAlerts 100 300 true 1000 [(150, 1100), (150, 1150)]).2 = 1 := by
  decide

/-- C1, amended: with notification credentials and recipients configured,
two breaching samples whose start timestamps are less than D apart yield
at most one dispatched alert from any prior debounce state, and exactly
one provided the first sample's start timestamp is at least D after the
prior last-alert timestamp; a further breaching sample at least D after
the last dispatched alert's timestamp triggers a new alert, and the
last-alert timestamp is updated to that sample's start timestamp. -/
theorem c1_debounce_amended (thresh D lastA r1 t1 r2 t2 : Int)
    (h12 : t1 - t2 < D) (h21 : t2 - t1 < D)
    (hb1 : thresh < r1) (hb2 : thresh < r2) (hfirst : D ≤ t1 - lastA) :
    (∀ creds la, (processAlerts thresh D creds la [(r1, t1), (r2, t2)]).2 ≤ 1) ∧
    processAlerts thresh D true lastA [(r1, t1), (r2, t2)] = (t1, 1) ∧
    (∀ r3 t3, thresh < r3 → D ≤ t3 - t1 →
      considerAlert thresh D t1 r3 t3 true = (AlertAction.dispatched, t3)) := by
  refine ⟨?_, ?_, ?_⟩
  · intro creds la
    by_cases hd : t1 - la < D
    · simp only [processAlerts, considerAlert, sendAlert, hb1, hb2, hd,
        if_true, if_pos]
      split_ifs <;> simp_all
    · cases creds
      · simp [processAlerts, considerAlert, sendAlert, hb1, hb2, hd]
        split_ifs <;> simp
      · simp [processAlerts, considerAlert, sendAlert, hb1, hb2, hd, h21]
  · have hA : ¬ (t1 - lastA < D) := by omega
    simp [processAlerts, considerAlert, sendAlert, hb1, hb2, hA, h21]
  · intro r3 t3 hb3 h3
    have hB : ¬ (t3 - t1 < D) := by omega
    simp [considerAlert, sendAlert, hb3, hB]

theorem c1_debounce_amended_witness :
    (∀ creds la,
      (processAlerts 100 300 creds la [(150, 300), (150, 400)]).2 ≤ 1) ∧
    processAlerts 100 300 true 0 [(150, 300), (150, 400)] = (300, 1) ∧
    (∀ r3 t3, 100 < r3 → 300 ≤ t3 - 300 →
      considerAlert 100 300 300 r3 t3 true = (AlertAction.dispatched, t3)) :=
  c1_debounce_amended 100 300 0 150 300 150 400 (by decide) (by decide)
    (by decide) (by decide) (by decide)

/-- C5: the claim says a failure to deliver a notification is reported but
never terminates or crashes the probing loop.  The webhook sink indeed
logs and returns on a failed POST, but `sendTwilio` discards the error of
`client.Do` and unconditionally dereferences `resp.StatusCode`; when the
request fails to reach the sink, `resp` is nil and the code panics,
crashing the process.  Evaluated at the failing input. -/
theorem c5_twilio_nil_deref :
    sendTwilio "AC123:token" none = TwilioOutcome.panicNilDeref ∧
    publishJSON true none = WebhookOutcome.postErrorLogged := by
  decide

/-- C7: closing an already-closed Stop Signal is a no-op.  The first
termination request closes the shared channel exactly once; a second
request performs no further close, no state change, and no error (the
handler nils its channel reference, so the guarded close never runs on a
closed channel); and from any state already closed, a handled signal never
reopens the channel. -/
theorem c7_stop_idempotent (s : StopState) (h : s.closed = true) :
    handleSignal initStop = Except.ok (⟨false, true⟩, true) ∧
    handleSignal ⟨false, true⟩ = Except.ok (⟨false, true⟩, false) ∧
    (∀ p, handleSignal s = Except.ok p → p.1.closed = true) := by
  refine ⟨rfl, rfl, ?_⟩
  intro p hp
  by_cases hr : s.hasRef
  · exfalso
    simp [handleSignal, hr, closeChan, h, Except.map] at hp
  · simp only [handleSignal, hr, Bool.false_eq_true, if_false, if_neg,
      Except.ok.injEq] at hp
    rw [← hp]
    exact h

theorem c7_stop_idempotent_witness :
    handleSignal initStop = Except.ok (⟨false, true⟩, true) ∧
    handleSignal ⟨false, true⟩ = Except.ok (⟨false, true⟩, false) ∧
    (∀ p, handleSignal ⟨false, true⟩ = Except.ok p → p.1.closed = true) :=
  c7_stop_idempotent ⟨false, true⟩ rfl

/-- C9: the claim says the last-alert timestamp is read and conditionally
written under mutual exclusion, so two loops can never both pass the
debounce check and both dispatch within one debounce interval.  The source
has no lock around `lastAlert` (the only sync primitive in perftest.go is
the WaitGroup), so the read at line 418 and the check-and-write at lines
424-430 interleave: in the schedule where both loops read before either
writes, both dispatch for samples with identical start timestamps (0 s
apart, debounce 300 s).  Evaluated at the failing interleaving. -/
theorem c9_debounce_race :
    (raceRun 300 1000 1000 [false, true, false, true]).disp0 = true ∧
    (raceRun 300 1000 1000 [false, true, false, true]).disp1 = true ∧
    (1000 : Int) - 1000 < 300 := by
  decide

/-- C10: a breaching sample outside the debounce interval with no
notification credentials or recipients configured still updates the
last-alert timestamp (perftest.go line 430 runs before the configuration
check at line 432), so the call reports the configuration error with the
timestamp already advanced, and every later breaching sample within the
debounce interval of that timestamp is suppressed even though no
notification was ever dispatched. -/
theorem c10_lastalert_updated_without_creds (D lastA t u : Int)
    (h1 : D ≤ t - lastA) (h2 : u - t < D) :
    sendAlert D lastA t false = (AlertAction.configError, t) ∧
    (∀ creds, sendAlert D t u creds = (AlertAction.suppressed, t)) := by
  constructor
  · simp only [sendAlert]
    rw [if_neg (by omega)]
    simp
  · intro creds
    simp only [sendAlert]
    rw [if_pos (by omega)]

theorem c10_lastalert_updated_without_creds_witness :
    sendAlert 300 0 300 false = (AlertAction.configError, 300) ∧
    (∀ creds, sendAlert 300 300 400 creds = (AlertAction.suppressed, 300)) :=
  c10_lastalert_updated_without_creds 300 0 300 400 (by decide) (by decide)

----------------------------------------------------------------------
-- Lemmas about the loop embedding
----------------------------------------------------------------------

theorem effTries_pos (nt : Int) (h : 0 ≤ nt) : 1 ≤ effTries nt := by
  unfold effTries
  split_ifs with h0
  · norm_num
  · omega

theorem succs_none (probe : Nat → Option PingTimes) (n : Nat)
    (h : probe n = none) : succs probe (n + 1) = succs probe n := by
  unfold succs
  rw [List.range_succ, List.filterMap_append]
  simp [h]

theorem succs_some (probe : Nat → Option PingTimes) (n : Nat) (pt : PingTimes)
    (h : probe n = some pt) : succs probe (n + 1) = succs probe n ++ [pt] := by
  unfold succs
  rw [List.range_succ, List.filterMap_append]
  simp [h]

theorem sumBy_snoc (f : PingTimes → Int) (L : List PingTimes) (pt : PingTimes) :
    sumBy f (L ++ [pt]) = sumBy f L + f pt := by
  simp [sumBy]

/-- Unfolding of one loop iteration whose probe attempt failed. -/
theorem runFrom_succ_none (mf nt : Int) (probe : Nat → Option PingTimes)
    (c : Option Nat) (n : Nat) (s : LoopState) (i : Nat)
    (hp : probe i = none) :
    runFrom mf nt probe c (n + 1) s i =
      (if mf ≤ s.failcount + 1 then
        some ⟨.failCeiling, i, { s with failcount := s.failcount + 1 },
          decide (s.count = 0), s.deferred⟩
      else if effTries nt ≤ s.count then
        some ⟨.maxAttempts, i, { s with failcount := s.failcount + 1 },
          false, s.deferred⟩
      else if doneClosed c i then
        some ⟨.stopped, i, { s with failcount := s.failcount + 1 },
          false, s.deferred⟩
      else
        runFrom mf nt probe c n { s with failcount := s.failcount + 1 }
          (i + 1)) := by
  simp only [runFrom, hp]

/-- Unfolding of one loop iteration whose probe attempt succeeded. -/
theorem runFrom_succ_some (mf nt : Int) (probe : Nat → Option PingTimes)
    (c : Option Nat) (n : Nat) (s : LoopState) (i : Nat) (pt : PingTimes)
    (hp : probe i = some pt) :
    runFrom mf nt probe c (n + 1) s i =
      (if effTries nt ≤ s.count + 1 then
        some ⟨.maxAttempts, i, succState s pt, false,
          (succState s pt).deferred⟩
      else if doneClosed c i then
        some ⟨.stopped, i, succState s pt, false,
          (succState s pt).deferred⟩
      else
        runFrom mf nt probe c n (succState s pt) (i + 1)) := by
  simp only [runFrom, hp]

/-- Every returned exit happens at or after the starting iteration, and
the deferred summary printer runs at exit iff it was registered. -/
theorem runFrom_some_spec (mf nt : Int) (probe : Nat → Option PingTimes)
    (c : Option Nat) :
    ∀ fuel s i e, runFrom mf nt probe c fuel s i = some e →
      i ≤ e.idx ∧ e.summaryPrinted = e.state.deferred := by
  intro fuel
  induction fuel with
  | zero =>
      intro s i e h
      simp [runFrom] at h
  | succ n ih =>
      intro s i e h
      cases hp : probe i
      case none =>
        rw [runFrom_succ_none mf nt probe c n s i hp] at h
        split_ifs at h <;>
          first
            | (injection h with h
               subst h
               exact ⟨le_refl _, rfl⟩)
            | (rcases ih _ _ _ h with ⟨h1, h2⟩
               exact ⟨by omega, h2⟩)
      case some pt =>
        rw [runFrom_succ_some mf nt probe c n s i pt hp] at h
        split_ifs at h <;>
          first
            | (injection h with h
               subst h
               exact ⟨le_refl _, rfl⟩)
            | (rcases ih _ _ _ h with ⟨h1, h2⟩
               exact ⟨by omega, h2⟩)

/-- The run result depends only on the probe results up to the exit
iteration: no probe attempt is issued after the exit. -/
theorem runFrom_local (mf nt : Int) (probe probe' : Nat → Option PingTimes)
    (c : Option Nat) :
    ∀ fuel s i e, runFrom mf nt probe c fuel s i = some e →
      (∀ j, j ≤ e.idx → probe' j = probe j) →
      runFrom mf nt probe' c fuel s i = some e := by
  intro fuel
  induction fuel with
  | zero =>
      intro s i e h _
      simp [runFrom] at h
  | succ n ih =>
      intro s i e h hag
      have hidx := (runFrom_some_spec mf nt probe c (n + 1) s i e h).1
      have hpi : probe' i = probe i := hag i hidx
      cases hp : probe i
      case none =>
        rw [runFrom_succ_none mf nt probe c n s i hp] at h
        rw [runFrom_succ_none mf nt probe' c n s i (hpi.trans hp)]
        split_ifs at h ⊢ <;>
          first
            | exact h
            | exact ih _ _ _ h hag
      case some pt =>
        rw [runFrom_succ_some mf nt probe c n s i pt hp] at h
        rw [runFrom_succ_some mf nt probe' c n s i pt (hpi.trans hp)]
        split_ifs at h ⊢ <;>
          first
            | exact h
            | exact ih _ _ _ h hag

/-- Once the done channel is closed at wait `t`, the loop returns within
the wait of iteration `t` at the latest (given enough fuel to reach it). -/
theorem runFrom_stop_some (mf nt : Int) (probe : Nat → Option PingTimes)
    (t : Nat) :
    ∀ fuel s i, 1 ≤ fuel → t + 1 ≤ fuel + i → i ≤ t →
      ∃ e, runFrom mf nt probe (some t) fuel s i = some e ∧ e.idx ≤ t := by
  intro fuel
  induction fuel with
  | zero =>
      intro s i h1 _ _
      exact absurd h1 (by omega)
  | succ n ih =>
      intro s i _ hle hit
      cases hp : probe i
      case none =>
        rw [runFrom_succ_none mf nt probe (some t) n s i hp]
        split_ifs with h1 h2 h3
        · exact ⟨_, rfl, hit⟩
        · exact ⟨_, rfl, hit⟩
        · exact ⟨_, rfl, hit⟩
        · have hlt : i < t := by
            simp [doneClosed] at h3
            omega
          have ha : 1 ≤ n := by omega
          have hb : t + 1 ≤ n + (i + 1) := by omega
          have hc : i + 1 ≤ t := by omega
          exact ih _ (i + 1) ha hb hc
      case some pt =>
        rw [runFrom_succ_some mf nt probe (some t) n s i pt hp]
        split_ifs with h1 h2
        · exact ⟨_, rfl, hit⟩
        · exact ⟨_, rfl, hit⟩
        · have hlt : i < t := by
            simp [doneClosed] at h2
            omega
          have ha : 1 ≤ n := by omega
          have hb : t + 1 ≤ n + (i + 1) := by omega
          have hc : i + 1 ≤ t := by omega
          exact ih _ (i + 1) ha hb hc

/-- Invariant: starting below the effective attempt bound, the success
count never exceeds it, the loop exits with reason `maxAttempts` exactly
when the count has reached it, and in that case the exit iteration's probe
was a success. -/
theorem runFrom_count_le (mf nt : Int) (probe : Nat → Option PingTimes)
    (c : Option Nat) :
    ∀ fuel s i e, s.count < effTries nt →
      runFrom mf nt probe c fuel s i = some e →
      e.state.count ≤ effTries nt ∧
      (e.reason = ExitReason.maxAttempts ↔ e.state.count = effTries nt) ∧
      (e.reason = ExitReason.maxAttempts → (probe e.idx).isSome = true) := by
  intro fuel
  induction fuel with
  | zero =>
      intro s i e _ h
      simp [runFrom] at h
  | succ n ih =>
      intro s i e hc h
      cases hp : probe i
      case none =>
        rw [runFrom_succ_none mf nt probe c n s i hp] at h
        split_ifs at h with h1 h2 h3
        · injection h with h
          subst h
          refine ⟨?_, ⟨fun hr => ?_, fun hcnt => ?_⟩, fun hr => ?_⟩
          · dsimp only
            omega
          · simp at hr
          · exfalso
            dsimp only at hcnt
            omega
          · simp at hr
        · exact absurd h2 (by omega)
        · injection h with h
          subst h
          refine ⟨?_, ⟨fun hr => ?_, fun hcnt => ?_⟩, fun hr => ?_⟩
          · dsimp only
            omega
          · simp at hr
          · exfalso
            dsimp only at hcnt
            omega
          · simp at hr
        · refine ih _ _ _ ?_ h
          dsimp only
          omega
      case some pt =>
        rw [runFrom_succ_some mf nt probe c n s i pt hp] at h
        split_ifs at h with h1 h2
        · injection h with h
          subst h
          refine ⟨?_, ⟨fun _ => ?_, fun _ => rfl⟩, fun _ => ?_⟩
          · dsimp only [succState]
            omega
          · dsimp only [succState]
            omega
          · dsimp only
            rw [hp]
            rfl
        · injection h with h
          subst h
          refine ⟨?_, ⟨fun hr => ?_, fun hcnt => ?_⟩, fun hr => ?_⟩
          · dsimp only [succState]
            omega
          · simp at hr
          · exfalso
            dsimp only [succState] at hcnt
            omega
          · simp at hr
        · refine ih _ _ _ ?_ h
          dsimp only [succState]
          omega

/-- Termination: every iteration either exits or strictly decreases the
remaining headroom of the two counters, so a run with enough fuel always
returns. -/
theorem runFrom_fuel_some (mf nt : Int) (probe : Nat → Option PingTimes)
    (c : Option Nat) :
    ∀ fuel s i,
      (effTries nt - s.count).toNat + (mf - s.failcount).toNat + 1 ≤ fuel →
      (runFrom mf nt probe c fuel s i).isSome = true := by
  intro fuel
  induction fuel with
  | zero =>
      intro s i hf
      exact absurd hf (by omega)
  | succ n ih =>
      intro s i hf
      cases hp : probe i
      case none =>
        rw [runFrom_succ_none mf nt probe c n s i hp]
        split_ifs with h1 h2 h3
        · rfl
        · rfl
        · rfl
        · refine ih _ (i + 1) ?_
          dsimp only
          omega
      case some pt =>
        rw [runFrom_succ_some mf nt probe c n s i pt hp]
        split_ifs with h1 h2
        · rfl
        · rfl
        · refine ih _ (i + 1) ?_
          dsimp only [succState]
          omega

/-- The running summary holds exactly the field-wise sums of a list of
samples. -/
def SummaryOk (L : List PingTimes) (p : PingTimes) : Prop :=
  p.dnsLk = sumBy PingTimes.dnsLk L ∧ p.tcpHs = sumBy PingTimes.tcpHs L ∧
  p.tlsHs = sumBy PingTimes.tlsHs L ∧ p.reply = sumBy PingTimes.reply L ∧
  p.close = sumBy PingTimes.close L ∧ p.total = sumBy PingTimes.total L ∧
  p.size = sumBy PingTimes.size L

/-- Loop-state invariant entering iteration `n`: the success count equals
the number of successful samples among attempts `0..n-1`, and once any
success happened the deferred printer is registered and `ptSummary` holds
the exact field-wise sums of those samples. -/
def Tracks (probe : Nat → Option PingTimes) (n : Nat) (s : LoopState) : Prop :=
  s.count = ((succs probe n).length : Int) ∧
  (0 < s.count → s.deferred = true ∧ SummaryOk (succs probe n) s.ptSummary)

theorem tracks_init (probe : Nat → Option PingTimes) :
    Tracks probe 0 initLoop := by
  constructor
  · simp [initLoop, succs]
  · intro h0
    simp [initLoop] at h0

theorem tracks_fail (probe : Nat → Option PingTimes) (n : Nat)
    (s : LoopState) (hp : probe n = none) (ht : Tracks probe n s) :
    Tracks probe (n + 1) { s with failcount := s.failcount + 1 } := by
  rw [Tracks, succs_none probe n hp]
  exact ht

theorem tracks_succ (probe : Nat → Option PingTimes) (n : Nat)
    (s : LoopState) (pt : PingTimes) (hp : probe n = some pt)
    (ht : Tracks probe n s) :
    Tracks probe (n + 1) (succState s pt) := by
  rcases ht with ⟨hcnt, hsum⟩
  rw [Tracks, succs_some probe n pt hp]
  by_cases h0 : s.count = 0
  · have hnil : succs probe n = [] := by
      have : ((succs probe n).length : Int) = 0 := by omega
      simpa using this
    constructor
    · simp [succState, hnil, h0, hcnt]
    · intro _
      simp only [succState, h0, if_pos rfl]
      refine ⟨rfl, ?_⟩
      simp [SummaryOk, hnil, sumBy]
  · have hpos : 0 < s.count := by
      have : (0 : Int) ≤ ((succs probe n).length : Int) := by positivity
      omega
    rcases hsum hpos with ⟨hdef, hS⟩
    constructor
    · simp only [succState]
      rw [List.length_append]
      simp only [List.length_singleton]
      push_cast
      omega
    · intro _
      simp only [succState, if_neg h0]
      refine ⟨hdef, ?_⟩
      rcases hS with ⟨e1, e2, e3, e4, e5, e6, e7⟩
      refine ⟨?_, ?_, ?_, ?_, ?_, ?_, ?_⟩ <;>
        simp [summaryAdd, sumBy_snoc, e1, e2, e3, e4, e5, e6, e7]

/-- The tracking invariant is preserved up to the exit iteration. -/
theorem runFrom_tracks (mf nt : Int) (probe : Nat → Option PingTimes)
    (c : Option Nat) :
    ∀ fuel s i e, Tracks probe i s →
      runFrom mf nt probe c fuel s i = some e →
      Tracks probe (e.idx + 1) e.state := by
  intro fuel
  induction fuel with
  | zero =>
      intro s i e _ h
      simp [runFrom] at h
  | succ n ih =>
      intro s i e ht h
      cases hp : probe i
      case none =>
        have ht' := tracks_fail probe i s hp ht
        rw [runFrom_succ_none mf nt probe c n s i hp] at h
        split_ifs at h <;>
          first
            | (injection h with h
               subst h
               exact ht')
            | exact ih _ _ _ ht' h
      case some pt =>
        have ht' := tracks_succ probe i s pt hp ht
        rw [runFrom_succ_some mf nt probe c n s i pt hp] at h
        split_ifs at h <;>
          first
            | (injection h with h
               subst h
               exact ht')
            | exact ih _ _ _ ht' h

/-- With every attempt failing and `fuel` attempts remaining before the
ceiling `F` is reached, the loop exits with the failure-ceiling reason at
the last of those attempts, prints the no-samples line, and never
registers the summary printer. -/
theorem runFrom_allfail_exit (F nt : Int) (probe : Nat → Option PingTimes)
    (hnt : 0 ≤ nt) (hp : ∀ j, probe j = none) :
    ∀ (fuel i : Nat) (fc : Int), fc + (fuel : Int) = F → 1 ≤ fuel →
      runFrom F nt probe none fuel ⟨0, fc, zeroPT, false⟩ i =
        some ⟨.failCeiling, i + (fuel - 1), ⟨0, F, zeroPT, false⟩,
          true, false⟩ := by
  intro fuel
  induction fuel with
  | zero =>
      intro i fc _ h1
      exact absurd h1 (by omega)
  | succ n ih =>
      intro i fc hsum _
      rw [runFrom_succ_none F nt probe none n _ i (hp i)]
      dsimp only
      rcases Nat.eq_zero_or_pos n with hn | hn
      · subst hn
        rw [if_pos (by push_cast at hsum; omega)]
        have hfc : fc + 1 = F := by
          push_cast at hsum
          omega
        simp [hfc]
      · rw [if_neg (by push_cast at hsum; omega)]
        rw [if_neg (by have := effTries_pos nt hnt; omega)]
        rw [if_neg (by simp [doneClosed])]
        rw [ih (i + 1) (fc + 1) (by push_cast at hsum ⊢; omega) hn]
        have hidx : i + 1 + (n - 1) = i + (n + 1 - 1) := by omega
        rw [hidx]

/-- With every attempt failing and fewer remaining attempts of fuel than
needed to reach the ceiling, the loop is still running. -/
theorem runFrom_allfail_none (F nt : Int) (probe : Nat → Option PingTimes)
    (hnt : 0 ≤ nt) (hp : ∀ j, probe j = none) :
    ∀ (fuel i : Nat) (fc : Int), fc + (fuel : Int) < F →
      runFrom F nt probe none fuel ⟨0, fc, zeroPT, false⟩ i = none := by
  intro fuel
  induction fuel with
  | zero =>
      intro i fc _
      simp [runFrom]
  | succ n ih =>
      intro i fc hlt
      rw [runFrom_succ_none F nt probe none n _ i (hp i)]
      dsimp only
      rw [if_neg (by push_cast at hlt; omega)]
      rw [if_neg (by have := effTries_pos nt hnt; omega)]
      rw [if_neg (by simp [doneClosed])]
      exact ih (i + 1) (fc + 1) (by push_cast at hlt ⊢; omega)

/-- C3: with failure ceiling `F ≥ 1` and a nonnegative attempt bound, if
every probe attempt fails, the target loop exits with the failure-ceiling
reason during its `F`-th attempt (and is still running after any fewer
than `F` attempts), with zero successes, `failcount = F`, the "No valid
samples received" message printed, and the Running Summary neither
registered nor printed. -/
theorem c3_failure_ceiling (F : Nat) (nt : Int)
    (probe : Nat → Option PingTimes) (hF : 1 ≤ F) (hnt : 0 ≤ nt)
    (hp : ∀ j, probe j = none) :
    testHttp (F : Int) nt probe none F =
      some ⟨.failCeiling, F - 1, ⟨0, (F : Int), zeroPT, false⟩,
        true, false⟩ ∧
    (∀ k, k < F → testHttp (F : Int) nt probe none k = none) := by
  constructor
  · have h := runFrom_allfail_exit (F : Int) nt probe hnt hp F 0 0
      (by ring) hF
    simpa [testHttp, initLoop] using h
  · intro k hk
    have h := runFrom_allfail_none (F : Int) nt probe hnt hp k 0 0
      (by omega)
    simpa [testHttp, initLoop] using h

theorem c3_failure_ceiling_witness :
    testHttp ((2 : Nat) : Int) 0 (fun _ => none) none 2 =
      some ⟨.failCeiling, 1, ⟨0, ((2 : Nat) : Int), zeroPT, false⟩,
        true, false⟩ ∧
    (∀ k, k < 2 → testHttp ((2 : Nat) : Int) 0 (fun _ => none) none k =
      none) :=
  c3_failure_ceiling 2 0 (fun _ => none) (by omega) (by omega) (fun _ => rfl)

/-- C4: if the done channel is closed by the wait of iteration `t`, a loop
given enough fuel to reach that wait returns at or before iteration `t`,
its result depends only on the probe attempts up to its exit iteration
(no further probe attempt is issued afterward), and once closed the
channel is observed closed by every subsequent wait. -/
theorem c4_stop_signal (mf nt : Int) (probe : Nat → Option PingTimes)
    (t : Nat) (fuel : Nat) (hf : t + 1 ≤ fuel) :
    (∃ e, testHttp mf nt probe (some t) fuel = some e ∧ e.idx ≤ t ∧
      ∀ probe', (∀ j, j ≤ e.idx → probe' j = probe j) →
        testHttp mf nt probe' (some t) fuel = some e) ∧
    (∀ j k : Nat, j ≤ k → doneClosed (some t) j = true →
      doneClosed (some t) k = true) := by
  constructor
  · rcases runFrom_stop_some mf nt probe t fuel initLoop 0 (by omega)
      (by omega) (by omega) with ⟨e, he, hi⟩
    exact ⟨e, he, hi, fun probe' hag =>
      runFrom_local mf nt probe probe' (some t) fuel initLoop 0 e he hag⟩
  · intro j k hjk hj
    simp only [doneClosed, decide_eq_true_eq] at hj ⊢
    omega

theorem c4_stop_signal_witness :
    (∃ e, testHttp 10 0 (fun _ => none) (some 0) 1 = some e ∧ e.idx ≤ 0 ∧
      ∀ probe', (∀ j, j ≤ e.idx → probe' j = (fun _ => none) j) →
        testHttp 10 0 probe' (some 0) 1 = some e) ∧
    (∀ j k : Nat, j ≤ k → doneClosed (some 0) j = true →
      doneClosed (some 0) k = true) :=
  c4_stop_signal 10 0 (fun _ => none) 0 1 (by omega)

/-- C6: with a bounded (positive) `numTries`, any exit of the target loop
has its success count equal to the number of successful probe attempts so
far (failed attempts do not count), the count never exceeds `numTries`,
the loop exits with the attempt-bound reason exactly when the count has
reached `numTries`, and such an exit happens at the iteration of the
`numTries`-th success. -/
theorem c6_max_attempts (mf nt : Int) (probe : Nat → Option PingTimes)
    (c : Option Nat) (fuel : Nat) (e : ExitInfo) (hnt : 1 ≤ nt)
    (h : testHttp mf nt probe c fuel = some e) :
    e.state.count = ((succs probe (e.idx + 1)).length : Int) ∧
    e.state.count ≤ nt ∧
    (e.reason = ExitReason.maxAttempts ↔ e.state.count = nt) ∧
    (e.reason = ExitReason.maxAttempts → (probe e.idx).isSome = true) := by
  have heff : effTries nt = nt := by
    unfold effTries
    rw [if_neg (by omega)]
  have htr := runFrom_tracks mf nt probe c fuel initLoop 0 e
    (tracks_init probe) h
  have hcl := runFrom_count_le mf nt probe c fuel initLoop 0 e
    (by rw [heff]; simp [initLoop]; omega) h
  rw [heff] at hcl
  exact ⟨htr.1, hcl.1, hcl.2.1, hcl.2.2⟩

theorem c6_max_attempts_witness :
    (2 : Int) =
      ((succs (fun i => if i = 0 then none
        else some (⟨1, 1, 1, 1, 1, 1, 1, 5⟩ : PingTimes)) 3).length : Int) ∧
    (2 : Int) ≤ 2 ∧
    (ExitReason.maxAttempts = ExitReason.maxAttempts ↔ (2 : Int) = 2) ∧
    (ExitReason.maxAttempts = ExitReason.maxAttempts →
      ((fun i => if i = 0 then none
        else some (⟨1, 1, 1, 1, 1, 1, 1, 5⟩ : PingTimes)) 2).isSome = true) :=
  c6_max_attempts 10 2
    (fun i => if i = 0 then none
      else some (⟨1, 1, 1, 1, 1, 1, 1, 5⟩ : PingTimes)) none 3
    ⟨.maxAttempts, 2, ⟨2, 1, ⟨2, 2, 2, 2, 2, 2, 2, 5⟩, true⟩, false, true⟩
    (by omega) (by decide)

/-- C8: with `numTries` configured as 0 the loop's attempt bound becomes
the finite cap `math.MaxInt32 = 2147483647`; any exit is due to the Stop
Signal, the failure ceiling, or that cap having been reached by the
success counter; and the loop always terminates within a finite number of
iterations bounded by the cap plus the failure ceiling. -/
theorem c8_unbounded_cap (mf : Int) (probe : Nat → Option PingTimes)
    (c : Option Nat) (fuel : Nat) :
    effTries 0 = 2147483647 ∧
    (∀ e, testHttp mf 0 probe c fuel = some e →
      e.reason = ExitReason.stopped ∨ e.reason = ExitReason.failCeiling ∨
        (e.reason = ExitReason.maxAttempts ∧
          e.state.count = 2147483647)) ∧
    ((2147483647 + mf.toNat + 1 : Nat) ≤ fuel →
      (testHttp mf 0 probe c fuel).isSome = true) := by
  refine ⟨rfl, ?_, ?_⟩
  · intro e he
    have hcl := runFrom_count_le mf 0 probe c fuel initLoop 0 e
      (by norm_num [initLoop, effTries]) he
    cases hr : e.reason
    case stopped => exact Or.inl rfl
    case failCeiling => exact Or.inr (Or.inl rfl)
    case maxAttempts =>
      refine Or.inr (Or.inr ⟨rfl, ?_⟩)
      have h2 := hcl.2.1.mp hr
      simpa [effTries] using h2
  · intro hfuel
    refine runFrom_fuel_some mf 0 probe c fuel initLoop 0 ?_
    simp only [initLoop, effTries, if_pos rfl]
    omega

theorem c8_unbounded_cap_witness :
    effTries 0 = 2147483647 ∧
    (∀ e, testHttp 1 0 (fun _ => none) none 1 = some e →
      e.reason = ExitReason.stopped ∨ e.reason = ExitReason.failCeiling ∨
        (e.reason = ExitReason.maxAttempts ∧
          e.state.count = 2147483647)) ∧
    ((2147483647 + (1 : Int).toNat + 1 : Nat) ≤ 1 →
      (testHttp 1 0 (fun _ => none) none 1).isSome = true) :=
  c8_unbounded_cap 1 (fun _ => none) none 1

/-- C2: whenever a target loop run that recorded at least one success
exits, the deferred Running Summary is printed, the success count equals
the number of successful samples, and every reported phase-duration
average equals exactly the accumulated sum of that field over all
successful samples divided (exactly, over ℚ, after the millisecond
conversion) by the success count, while the payload-size average is that
sum divided by the count with the single truncating `int64` division. -/
theorem c2_summary_averages (mf nt : Int) (probe : Nat → Option PingTimes)
    (c : Option Nat) (fuel : Nat) (e : ExitInfo)
    (h : testHttp mf nt probe c fuel = some e) (hpos : 0 < e.state.count) :
    e.summaryPrinted = true ∧
    e.state.count = ((succs probe (e.idx + 1)).length : Int) ∧
    finalReport e.state =
      { dnsLk := Msec (sumBy PingTimes.dnsLk (succs probe (e.idx + 1))) /
          (e.state.count : ℚ)
        tcpHs := Msec (sumBy PingTimes.tcpHs (succs probe (e.idx + 1))) /
          (e.state.count : ℚ)
        tlsHs := Msec (sumBy PingTimes.tlsHs (succs probe (e.idx + 1))) /
          (e.state.count : ℚ)
        reply := Msec (sumBy PingTimes.reply (succs probe (e.idx + 1))) /
          (e.state.count : ℚ)
        close := Msec (sumBy PingTimes.close (succs probe (e.idx + 1))) /
          (e.state.count : ℚ)
        respTime := Msec (sumBy PingTimes.total (succs probe (e.idx + 1))) /
          (e.state.count : ℚ)
        size := (sumBy PingTimes.size (succs probe (e.idx + 1))).tdiv
          e.state.count } := by
  have htr := runFrom_tracks mf nt probe c fuel initLoop 0 e
    (tracks_init probe) h
  have hps := (runFrom_some_spec mf nt probe c fuel initLoop 0 e h).2
  rcases htr with ⟨hcnt, hsum⟩
  rcases hsum hpos with ⟨hdef, hS⟩
  rcases hS with ⟨e1, e2, e3, e4, e5, e6, e7⟩
  refine ⟨hps.trans hdef, hcnt, ?_⟩
  simp only [finalReport, PingTimes.RespTime, e1, e2, e3, e4, e5, e6, e7]

/-- A concrete sample used by the witnesses: all phase fields 1 ns,
size 1 byte, start time 5. -/
def sampleA : PingTimes := ⟨1, 1, 1, 1, 1, 1, 1, 5⟩

/-- A probe oracle that always succeeds with `sampleA`. -/
def probeA : Nat → Option PingTimes := fun _ => some sampleA

/-- The exit of `testHttp 10 2 probeA none 2`: the attempt bound 2 is
reached at iteration 1 with two accumulated samples. -/
def exitA : ExitInfo :=
  ⟨.maxAttempts, 1, ⟨2, 0, ⟨2, 2, 2, 2, 2, 2, 2, 5⟩, true⟩, false, true⟩

theorem c2_summary_averages_witness :
    exitA.summaryPrinted = true ∧
    exitA.state.count = ((succs probeA (exitA.idx + 1)).length : Int) ∧
    finalReport exitA.state =
      { dnsLk := Msec (sumBy PingTimes.dnsLk (succs probeA (exitA.idx + 1))) /
          (exitA.state.count : ℚ)
        tcpHs := Msec (sumBy PingTimes.tcpHs (succs probeA (exitA.idx + 1))) /
          (exitA.state.count : ℚ)
        tlsHs := Msec (sumBy PingTimes.tlsHs (succs probeA (exitA.idx + 1))) /
          (exitA.state.count : ℚ)
        reply := Msec (sumBy PingTimes.reply (succs probeA (exitA.idx + 1))) /
          (exitA.state.count : ℚ)
        close := Msec (sumBy PingTimes.close (succs probeA (exitA.idx + 1))) /
          (exitA.state.count : ℚ)
        respTime := Msec (sumBy PingTimes.total (succs probeA (exitA.idx + 1))) /
          (exitA.state.count : ℚ)
        size := (sumBy PingTimes.size (succs probeA (exitA.idx + 1))).tdiv
          exitA.state.count } :=
  c2_summary_averages 10 2 probeA none 2 exitA (by decide) (by decide)
